import Mathlib

/-!
Verification development for the ai-monitor repository.

The Python sources (`translator.py`, `news_client.py`, `app.py`) are shallowly
embedded below.  Python strings are modelled as `List Char`; Python's dynamic
effects (the googletrans backend, the feedparser network fetch) are modelled as
explicit outcome values passed to the embedded functions, so that every embedded
function is a total, executable Lean function.  Timestamps are modelled as `Nat`
with `0` playing the role of `datetime.min` (the least representable datetime);
`parse_date` can only ever produce values at or above that minimum, exactly as
`datetime` values are always `≥ datetime.min`.
-/

/-- Python strings, modelled as lists of characters. -/
abbrev Str := List Char

/-- Python `str.lower()` (ASCII case mapping). -/
def pyLower (s : Str) : Str := s.map Char.toLower

/-- Python `str.strip()`: remove leading and trailing whitespace. -/
def pyStrip (s : Str) : Str :=
  ((s.dropWhile Char.isWhitespace).reverse.dropWhile Char.isWhitespace).reverse

/-- Helper: `startsWith hay needle` asks: does `needle` occur at the head of `hay`? -/
def startsWith : Str → Str → Bool
  | _, [] => true
  | [], _ :: _ => false
  | h :: hs, n :: ns => h == n && startsWith hs ns

/-- Python's substring operator `needle in hay` (contiguous occurrence). -/
def strContains : Str → Str → Bool
  | [], needle => needle.isEmpty
  | h :: t, needle => startsWith (h :: t) needle || strContains t needle

/- ### translator.py -/

/-- Outcome of the `translator.detect(text)` call in `translate_text`:
either it returned an object whose `.lang` is `lang`, or it raised
(the bare `except: pass` path). -/
inductive DetectOutcome
  | ok (lang : Str)
  | err
deriving DecidableEq

/-- Outcome of the `translator.translate(sent, dest=dest)` call: either it
returned an object whose `.text` is `output`, or it raised (network error,
quota, malformed response — all land in the same `except Exception`). -/
inductive BackendOutcome
  | ok (output : Str)
  | err
deriving DecidableEq

/-- What one (uncached) run of `translate_text` did: the string it returned and
the text it passed to `translator.translate`, if it made that call at all. -/
structure TranslateRun where
  result : Str
  sent : Option Str
deriving DecidableEq

/-- Embedding of `translate_text(text, dest)` from `translator.py`, body only (the
`@lru_cache` wrapper is modelled separately as `translate_text_cached`).
`backend` maps the text actually passed to `translator.translate` to that
call's outcome; `detect` is the outcome of `translator.detect(text)`. -/
def translate_text (text dest : Str) (detect : DetectOutcome)
    (backend : Str → BackendOutcome) : TranslateRun :=
  -- `if not text or not text.strip(): return text`
  if text = [] ∨ pyStrip text = [] then ⟨text, none⟩
  else
    -- `detected = translator.detect(text); if detected.lang == 'ja': return text`
    -- (a raising `detect` falls through via `except: pass`)
    match detect with
    | .ok lang =>
        if lang = "ja".toList then ⟨text, none⟩
        else
          match backend text with
          | .ok out => ⟨out, some text⟩
          | .err => ⟨text, some text⟩
    | .err =>
        match backend text with
        | .ok out => ⟨out, some text⟩
        | .err => ⟨text, some text⟩

/-- Cache key of the `@lru_cache` wrapper: the argument tuple `(text, dest)`. -/
abbrev CacheKey := Str × Str

/-- State of the `@lru_cache(maxsize=500)` wrapper: entries listed from most
recently used to least recently used. -/
structure LruCache where
  entries : List (CacheKey × Str)
deriving DecidableEq

/-- The `maxsize` of the `lru_cache` decorator on `translate_text`. -/
def LRU_MAXSIZE : Nat := 500

/-- Cache lookup (no reordering). -/
def lruLookup (c : LruCache) (k : CacheKey) : Option Str :=
  (c.entries.find? (fun e => e.1 == k)).map (fun e => e.2)

/-- Record `k ↦ v` as the most recently used entry, evicting the least
recently used entry beyond capacity.  Used both on a hit (refreshing recency
with the stored value) and on a miss (inserting the freshly computed value). -/
def lruStore (c : LruCache) (k : CacheKey) (v : Str) : LruCache :=
  ⟨((k, v) :: c.entries.filter (fun e => !(e.1 == k))).take LRU_MAXSIZE⟩

/-- What one call of the decorated `translate_text` did: result, cache state
after the call, and the text passed to `translator.translate` (none on a cache
hit, where the function body never runs, and on the short-circuit returns). -/
structure CachedRun where
  result : Str
  state : LruCache
  sent : Option Str
deriving DecidableEq

/-- The `@lru_cache(maxsize=500)`-decorated `translate_text`: on a hit the body
is not executed at all; on a miss the body runs and its result is cached under
the argument tuple. -/
def translate_text_cached (c : LruCache) (text dest : Str) (detect : DetectOutcome)
    (backend : Str → BackendOutcome) : CachedRun :=
  match lruLookup c (text, dest) with
  | some v => ⟨v, lruStore c (text, dest) v, none⟩
  | none =>
      let r := translate_text text dest detect backend
      ⟨r.result, lruStore c (text, dest) r.result, r.sent⟩

/- ### news_client.py -/

/-- A raw feed entry as `fetch_feed` consumes it, with the field-extraction
helpers already applied: `title` is `entry.get('title', '')`, `summary` is
`entry.get('summary', entry.get('description', ''))`, `link` is
`entry.get('link', '')`, `published` is `parse_date(entry)` (absent when
neither structured timestamp parses) and `image_url` is
`extract_image(entry)`. -/
structure RawEntry where
  title : Str
  summary : Str
  link : Str
  published : Option Nat
  image_url : Option Str
deriving DecidableEq

/-- One `NewsItem` dataclass value. -/
structure NewsItem where
  title : Str
  summary : Str
  url : Str
  source : Str
  published : Option Nat
  image_url : Option Str
deriving DecidableEq

/-- Outcome of `feedparser.parse(url)` inside `fetch_feed`'s `try`: either the
parsed feed's entry list, or a raised error (network failure, timeout,
malformed payload — anything reaching the `except Exception` handler). -/
inductive FeedOutcome
  | ok (entries : List RawEntry)
  | err
deriving DecidableEq

/-- The `AI_KEYWORDS` list from `news_client.py`. -/
def AI_KEYWORDS : List Str := [
  "ai".toList, "artificial intelligence".toList, "machine learning".toList, "ml".toList,
  "llm".toList, "large language model".toList, "gpt".toList, "chatgpt".toList, "claude".toList,
  "gemini".toList, "openai".toList, "anthropic".toList, "deepmind".toList, "google ai".toList,
  "neural".toList, "deep learning".toList, "transformer".toList, "diffusion".toList,
  "generative".toList, "copilot".toList, "midjourney".toList, "stable diffusion".toList,
  "agent".toList, "rag".toList, "embedding".toList, "fine-tuning".toList, "prompt".toList]

/-- Embedding of `is_ai_related(title, summary)` from `news_client.py`:
`text = (title + ' ' + summary).lower()`, then substring-match each keyword. -/
def is_ai_related (title summary : Str) : Bool :=
  let text := pyLower (title ++ (' ' :: summary))
  AI_KEYWORDS.any (fun kw => strContains text kw)

/-- The summary truncation expression in `fetch_feed`:
`summary[:300] + '...' if len(summary) > 300 else summary`. -/
def truncate_summary (s : Str) : Str :=
  if s.length > 300 then s.take 300 ++ "...".toList else s

/-- The `NewsItem(...)` constructor call in `fetch_feed`, applied to one
surviving entry (`cleanHtml` is the `clean_html` function, kept abstract:
no claim depends on its internals, only on where it is applied). -/
def normalizeEntry (cleanHtml : Str → Str) (name : Str) (e : RawEntry) : NewsItem :=
  { title := cleanHtml e.title,
    summary := truncate_summary (cleanHtml e.summary),
    url := e.link,
    source := name,
    published := e.published,
    image_url := e.image_url }

/-- Embedding of `fetch_feed(name, url)` from `news_client.py`.  The outcome of the network
fetch/parse is passed in as data; the `except` branch returns `[]`.  On
success: cap to the first 20 entries, clean title and summary, skip entries
that are neither from an "AI"-named source nor AI-related, and build the
`NewsItem` records in feed order. -/
def fetch_feed (cleanHtml : Str → Str) (name : Str) (outcome : FeedOutcome) : List NewsItem :=
  match outcome with
  | .err => []
  | .ok entries =>
      (entries.take 20).filterMap (fun e =>
        -- `if 'AI' not in name and not is_ai_related(title, summary): continue`
        -- (`title`/`summary` are the cleaned fields, inlined here)
        if !(strContains name "AI".toList) &&
            !(is_ai_related (cleanHtml e.title) (cleanHtml e.summary)) then none
        else some (normalizeEntry cleanHtml name e))

/-- The `NEWS_FEEDS` registry from `news_client.py` (name, feed URL). -/
def NEWS_FEEDS : List (Str × Str) := [
  ("TechCrunch AI".toList, "https://techcrunch.com/category/artificial-intelligence/feed/".toList),
  ("The Verge AI".toList, "https://www.theverge.com/rss/ai-artificial-intelligence/index.xml".toList),
  ("Wired AI".toList, "https://www.wired.com/feed/tag/ai/latest/rss".toList),
  ("Ars Technica AI".toList, "https://feeds.arstechnica.com/arstechnica/technology-lab".toList),
  ("VentureBeat AI".toList, "https://venturebeat.com/category/ai/feed/".toList),
  ("MIT Tech Review AI".toList, "https://www.technologyreview.com/feed/".toList)]

/-- The dict comprehension in `fetch_all_news`:
`{k: v for k, v in NEWS_FEEDS.items() if not sources or k in sources}`.
`sources` is `None` or a list; `not sources` is true for `None` and `[]`. -/
def selectFeeds (sources : Option (List Str)) : List (Str × Str) :=
  NEWS_FEEDS.filter (fun p =>
    match sources with
    | none => true
    | some ss => ss.isEmpty || ss.contains p.1)

/-- The sort key in `fetch_all_news`: `x.published or datetime.min`.
`datetime` values are always truthy in Python, so only an absent `published`
falls back to `datetime.min` (modelled as `0`). -/
def sortKey (x : NewsItem) : Nat := x.published.getD 0

/-- Insert `x` in front of the first element whose key is `≤` its own.
`x` always stems from earlier in the unsorted list than the elements it is
inserted among, so placing it before equal keys preserves original order. -/
def insertByKey (x : NewsItem) : List NewsItem → List NewsItem
  | [] => [x]
  | y :: ys => if sortKey y ≤ sortKey x then x :: y :: ys else y :: insertByKey x ys

/-- Embedding of `all_items.sort(key=lambda x: x.published or datetime.min, reverse=True)`.
Python's sort is stable, and with `reverse=True` equal keys still keep their
original order; the stable insertion sort below produces exactly that list
(the unique permutation that is non-increasing by key and keeps the original
relative order of equal keys). -/
def sortByPublishedDesc : List NewsItem → List NewsItem
  | [] => []
  | x :: xs => insertByKey x (sortByPublishedDesc xs)

/-- Embedding of `fetch_all_news(sources)` from `news_client.py`.  The thread pool submits
one `fetch_feed` task per selected feed and the `for future in futures` loop
extends `all_items` in submission order, so the merge order is the registry
order regardless of completion order; `fetchOutcome` gives each source's
fetch/parse outcome by name. -/
def fetch_all_news (cleanHtml : Str → Str) (fetchOutcome : Str → FeedOutcome)
    (sources : Option (List Str)) : List NewsItem :=
  let all_items :=
    ((selectFeeds sources).map (fun p => fetch_feed cleanHtml p.1 (fetchOutcome p.1))).flatten
  sortByPublishedDesc all_items

/- ### app.py -/

/-- The keyword filter predicate in `get_news`:
`query in n.title.lower() or query in n.summary.lower()`. -/
def matchesQuery (query : Str) (n : NewsItem) : Bool :=
  strContains (pyLower n.title) query || strContains (pyLower n.summary) query

/-- The item-selection part of the `/api/news` handler `get_news` in `app.py`:
`sources = request.args.getlist('sources')` (a possibly empty list),
`query = request.args.get('query', '').strip().lower()`,
`news = fetch_all_news(sources if sources else None)`, the keyword filter when
`query` is non-empty, then `news[:50]` — the items that are subsequently
translated and serialized. -/
def get_news (cleanHtml : Str → Str) (fetchOutcome : Str → FeedOutcome)
    (sources : List Str) (queryArg : Str) : List NewsItem :=
  let query := pyLower (pyStrip queryArg)
  let news := fetch_all_news cleanHtml fetchOutcome (if sources.isEmpty then none else some sources)
  let news := if query.isEmpty then news else news.filter (matchesQuery query)
  news.take 50

/- ### Spec-worded predicates (for refinement comparisons) -/

/-- Acceptance predicate following the spec's Relevance Filter wording
literally: accept when the registry name contains the marker "AI", otherwise
accept iff the case-insensitive concatenation of title and summary — read as
the plain concatenation `title ++ summary` — contains at least one keyword. -/
def acceptsSpec (name title summary : Str) : Bool :=
  strContains name "AI".toList ||
    AI_KEYWORDS.any (fun kw => strContains (pyLower (title ++ summary)) kw)

/-- Acceptance predicate of the amended claim: as `acceptsSpec`, but title and
summary are joined with the single separating space the code inserts. -/
def acceptsAmended (name title summary : Str) : Bool :=
  strContains name "AI".toList ||
    AI_KEYWORDS.any (fun kw => strContains (pyLower (title ++ (' ' :: summary))) kw)

/-- Case-insensitive keyword match against a `NewsItem`, as the spec words it:
the keyword occurs case-insensitively in the title or in the summary. -/
def matchesKeywordCI (kw : Str) (n : NewsItem) : Bool :=
  strContains (pyLower n.title) (pyLower kw) || strContains (pyLower n.summary) (pyLower kw)

/-- Concrete over-limit input for the truncation claim: 4501 copies of 'a'. -/
def cexLongText : Str := List.replicate 4501 'a'

/- ### Helper lemmas -/

lemma dropWhile_ws_replicate_a (n : Nat) :
    List.dropWhile Char.isWhitespace (List.replicate n 'a') = List.replicate n 'a' := by
  cases n with
  | zero => rfl
  | succ m => rfl

lemma pyStrip_replicate_a (n : Nat) :
    pyStrip (List.replicate n 'a') = List.replicate n 'a' := by
  unfold pyStrip
  rw [dropWhile_ws_replicate_a, List.reverse_replicate, dropWhile_ws_replicate_a,
    List.reverse_replicate]

lemma cexLongText_strip : pyStrip cexLongText ≠ [] := by
  unfold cexLongText
  rw [pyStrip_replicate_a]
  intro h
  have hl := congrArg List.length h
  rw [List.length_replicate, List.length_nil] at hl
  exact absurd hl (by decide)

lemma strip_cond_false (text : Str) (h : pyStrip text ≠ []) :
    ¬ (text = [] ∨ pyStrip text = []) := by
  intro hc
  cases hc with
  | inl he => exact h (by rw [he]; rfl)
  | inr he => exact h he

/-- When the input survives the emptiness guard and detection does not report
'ja', `translate_text` reaches the `translator.translate` call on the full
input text. -/
lemma translate_text_reaches_backend (text dest : Str) (detect : DetectOutcome)
    (backend : Str → BackendOutcome)
    (h : pyStrip text ≠ [])
    (hdet : ∀ lang, detect = .ok lang → lang ≠ "ja".toList) :
    translate_text text dest detect backend =
      match backend text with
      | .ok out => ⟨out, some text⟩
      | .err => ⟨text, some text⟩ := by
  cases detect with
  | ok lang =>
      have hne : lang ≠ ['j', 'a'] := by simpa using hdet lang rfl
      simp [translate_text, strip_cond_false text h, hne]
  | err => simp [translate_text, strip_cond_false text h]

lemma lruStore_take_cons (c : LruCache) (k : CacheKey) (v : Str) :
    ((k, v) :: c.entries.filter (fun e => !(e.1 == k))).take LRU_MAXSIZE
      = (k, v) :: (c.entries.filter (fun e => !(e.1 == k))).take 499 := rfl

lemma lruLookup_store (c : LruCache) (k : CacheKey) (v : Str) :
    lruLookup (lruStore c k v) k = some v := by
  unfold lruLookup lruStore
  rw [lruStore_take_cons, List.find?_cons_of_pos _ (by simp)]
  rfl

/- ### Claim C1 -/

/-- Claim C1, as stated, is false: `translate_text` performs no length
truncation.  At the concrete 4501-character input `cexLongText` (detection
raises, backend fails) the text passed to the backend is the full input, whose
length is 4501, and it is not the first 4500 characters of the input. -/
theorem C1_counterexample :
    (translate_text cexLongText "ja".toList .err (fun _ => .err)).sent = some cexLongText ∧
    cexLongText.length = 4501 ∧
    (translate_text cexLongText "ja".toList .err (fun _ => .err)).sent
      ≠ some (cexLongText.take 4500) := by
  have hs := translate_text_reaches_backend cexLongText "ja".toList .err (fun _ => .err)
    cexLongText_strip (fun lang h => nomatch h)
  refine ⟨by rw [hs], by rw [cexLongText, List.length_replicate], ?_⟩
  rw [hs]
  intro hcontra
  have heq : cexLongText = cexLongText.take 4500 := Option.some.inj hcontra
  have hl := congrArg List.length heq
  rw [List.length_take, cexLongText, List.length_replicate] at hl
  exact absurd hl (by decide)

/-- Claim C1 (amended): for every input that reaches translation (non-blank,
not detected as 'ja'), `translate_text` sends the entire input string to the
backend — no truncation at 4500 characters — and the call still returns a
result without error: the backend's output on success, the input unchanged on
backend failure. -/
theorem C1_full_input_sent (text dest : Str) (detect : DetectOutcome)
    (backend : Str → BackendOutcome)
    (h : pyStrip text ≠ [])
    (hdet : ∀ lang, detect = .ok lang → lang ≠ "ja".toList) :
    (translate_text text dest detect backend).sent = some text ∧
    (∀ out, backend text = .ok out → (translate_text text dest detect backend).result = out) ∧
    (backend text = .err → (translate_text text dest detect backend).result = text) := by
  have hs := translate_text_reaches_backend text dest detect backend h hdet
  refine ⟨?_, ?_, ?_⟩
  · rw [hs]; cases backend text <;> rfl
  · intro out hout; rw [hs, hout]
  · intro herr; rw [hs, herr]

/-- Witness for C1's theorem at input "hello" with a failing backend. -/
theorem C1_full_input_sent_witness :
    pyStrip "hello".toList ≠ [] ∧
    (translate_text "hello".toList "ja".toList .err (fun _ => .err)).sent
      = some "hello".toList ∧
    (translate_text "hello".toList "ja".toList .err (fun _ => .err)).result
      = "hello".toList := by
  have happ := C1_full_input_sent "hello".toList "ja".toList .err (fun _ => .err)
    (by decide) (fun lang h => nomatch h)
  exact ⟨by decide, happ.1, happ.2.2 rfl⟩

/- ### Claim C2 -/

/-- Claim C2, as stated, is false in its "no cache entry" part: calling the
`@lru_cache`-decorated `translate_text` on the empty string over an empty
cache returns `""` unchanged and makes no backend call, but it does create a
cache entry — the decorator memoizes every call, fast path included. -/
theorem C2_counterexample :
    (translate_text_cached ⟨[]⟩ [] "ja".toList .err (fun _ => .err)).result = [] ∧
    (translate_text_cached ⟨[]⟩ [] "ja".toList .err (fun _ => .err)).sent = none ∧
    lruLookup (translate_text_cached ⟨[]⟩ [] "ja".toList .err (fun _ => .err)).state
      ([], "ja".toList) = some [] ∧
    (translate_text_cached ⟨[]⟩ [] "ja".toList .err (fun _ => .err)).state.entries ≠ [] := by
  refine ⟨rfl, rfl, rfl, ?_⟩
  intro h
  exact absurd h (by decide)

/-- Claim C2 (amended): a first call of the decorated `translate_text` on an
empty or whitespace-only input returns the input unchanged and makes no
backend call, but a cache entry mapping the input to itself is created. -/
theorem C2_empty_input_cached (c : LruCache) (text dest : Str) (detect : DetectOutcome)
    (backend : Str → BackendOutcome)
    (hblank : pyStrip text = [])
    (hmiss : lruLookup c (text, dest) = none) :
    (translate_text_cached c text dest detect backend).result = text ∧
    (translate_text_cached c text dest detect backend).sent = none ∧
    lruLookup (translate_text_cached c text dest detect backend).state (text, dest)
      = some text := by
  have hbody : translate_text text dest detect backend = ⟨text, none⟩ := by
    unfold translate_text
    rw [if_pos (Or.inr hblank)]
  unfold translate_text_cached
  rw [hmiss]
  simp only [hbody]
  exact ⟨trivial, trivial, lruLookup_store c (text, dest) text⟩

/-- Witness for C2's theorem at a whitespace-only input over the empty cache. -/
theorem C2_empty_input_cached_witness :
    pyStrip "  ".toList = [] ∧
    lruLookup ⟨[]⟩ ("  ".toList, "ja".toList) = none ∧
    (translate_text_cached ⟨[]⟩ "  ".toList "ja".toList .err (fun _ => .err)).result
      = "  ".toList ∧
    lruLookup (translate_text_cached ⟨[]⟩ "  ".toList "ja".toList .err
      (fun _ => .err)).state ("  ".toList, "ja".toList) = some "  ".toList := by
  have happ := C2_empty_input_cached ⟨[]⟩ "  ".toList "ja".toList .err (fun _ => .err)
    (by decide) (by decide)
  exact ⟨by decide, by decide, happ.1, happ.2.2⟩

/- ### Claim C7 -/

/-- Claim C7: whenever the backend call made for the input fails,
`translate_text` returns the original input unchanged; being a total function
of the outcomes, it propagates no error to the caller. -/
theorem C7_backend_failure_passthrough (text dest : Str) (detect : DetectOutcome)
    (backend : Str → BackendOutcome)
    (hfail : backend text = .err) :
    (translate_text text dest detect backend).result = text := by
  unfold translate_text
  by_cases hc : text = [] ∨ pyStrip text = []
  · rw [if_pos hc]
  · rw [if_neg hc]
    cases detect with
    | ok lang =>
        by_cases hl : lang = "ja".toList
        · simp [hl]
        · simp [hl, hfail]
          split <;> rfl
    | err => simp [hfail]

/-- Witness for C7's theorem at input "hi" with a failing backend. -/
theorem C7_backend_failure_passthrough_witness :
    (fun _ : Str => BackendOutcome.err) "hi".toList = .err ∧
    (translate_text "hi".toList "ja".toList .err (fun _ => .err)).result = "hi".toList :=
  ⟨rfl, C7_backend_failure_passthrough "hi".toList "ja".toList .err (fun _ => .err) rfl⟩

/- ### Claim C9 -/

/-- Claim C9: if language detection succeeds and reports 'ja', `translate_text`
returns the input unchanged without calling the backend, for every `dest`
argument — the short-circuit compares against the literal 'ja', not `dest`. -/
theorem C9_detect_ja_shortcircuit (text dest : Str) (backend : Str → BackendOutcome)
    (h : pyStrip text ≠ []) :
    translate_text text dest (.ok "ja".toList) backend = ⟨text, none⟩ := by
  unfold translate_text
  rw [if_neg (strip_cond_false text h)]
  simp

/-- Witness for C9's theorem at input "hello" with `dest = "en" ≠ "ja"`. -/
theorem C9_detect_ja_shortcircuit_witness :
    pyStrip "hello".toList ≠ [] ∧
    "en".toList ≠ "ja".toList ∧
    translate_text "hello".toList "en".toList (.ok "ja".toList)
      (fun _ => .ok "bonjour".toList) = ⟨"hello".toList, none⟩ :=
  ⟨by decide, by decide,
    C9_detect_ja_shortcircuit "hello".toList "en".toList
      (fun _ => .ok "bonjour".toList) (by decide)⟩

/- ### Claim C10 -/

/-- Claim C10: when the backend fails for a (non-blank, not detected-as-'ja')
input `text`, the pass-through result `text` is stored in the cache under the
call's key, and any later call whose key is still cached (mapping to `text`)
returns `text` without running the body — so no further backend call is made
and the failed translation is never retried while the entry remains cached. -/
theorem C10_failure_cached (c : LruCache) (text dest : Str) (detect : DetectOutcome)
    (backend : Str → BackendOutcome)
    (hmiss : lruLookup c (text, dest) = none)
    (h : pyStrip text ≠ [])
    (hdet : ∀ lang, detect = .ok lang → lang ≠ "ja".toList)
    (hfail : backend text = .err) :
    ((translate_text_cached c text dest detect backend).result = text ∧
     (translate_text_cached c text dest detect backend).sent = some text ∧
     lruLookup (translate_text_cached c text dest detect backend).state (text, dest)
       = some text) ∧
    (∀ (c' : LruCache) (detect' : DetectOutcome) (backend' : Str → BackendOutcome),
       lruLookup c' (text, dest) = some text →
       (translate_text_cached c' text dest detect' backend').result = text ∧
       (translate_text_cached c' text dest detect' backend').sent = none) := by
  have hbody : translate_text text dest detect backend = ⟨text, some text⟩ := by
    rw [translate_text_reaches_backend text dest detect backend h hdet, hfail]
  constructor
  · unfold translate_text_cached
    rw [hmiss]
    simp only [hbody]
    exact ⟨trivial, trivial, lruLookup_store c (text, dest) text⟩
  · intro c' detect' backend' hhit
    unfold translate_text_cached
    rw [hhit]
    exact ⟨rfl, rfl⟩

/-- Witness for C10's theorem: a failing call on "hello" over the empty cache,
then a second call served from the resulting cache without a backend call. -/
theorem C10_failure_cached_witness :
    lruLookup ⟨[]⟩ ("hello".toList, "ja".toList) = none ∧
    (translate_text_cached ⟨[]⟩ "hello".toList "ja".toList .err (fun _ => .err)).result
      = "hello".toList ∧
    (translate_text_cached
        (translate_text_cached ⟨[]⟩ "hello".toList "ja".toList .err (fun _ => .err)).state
        "hello".toList "ja".toList .err (fun _ => .err)).result = "hello".toList ∧
    (translate_text_cached
        (translate_text_cached ⟨[]⟩ "hello".toList "ja".toList .err (fun _ => .err)).state
        "hello".toList "ja".toList .err (fun _ => .err)).sent = none := by
  have happ := C10_failure_cached ⟨[]⟩ "hello".toList "ja".toList .err (fun _ => .err)
    (by decide) (by decide) (fun lang h => nomatch h) rfl
  have hsecond := happ.2
    (translate_text_cached ⟨[]⟩ "hello".toList "ja".toList .err (fun _ => .err)).state
    .err (fun _ => .err) happ.1.2.2
  exact ⟨by decide, happ.1.1, hsecond.1, hsecond.2⟩

/- ### Helper lemmas for the news client -/

lemma not_not_and_not (a b : Bool) : (!(!a && !b)) = (a || b) := by
  cases a <;> cases b <;> rfl

lemma skipFilterMap {α β : Type} (c : α → Bool) (g : α → β) :
    ∀ l : List α,
      l.filterMap (fun a => if c a then none else some (g a))
        = (l.filter (fun a => !(c a))).map g := by
  intro l
  induction l with
  | nil => rfl
  | cons a t ih =>
      cases hca : c a <;>
        simp [List.filterMap_cons, List.filter_cons, hca, ih]

/-- Lemma: `fetch_feed` on a successful fetch keeps, in feed order, exactly the
entries (among the first 20) accepted by the relevance rule, each normalized;
shared by the C5 and C6 developments. -/
lemma fetch_feed_eq (cleanHtml : Str → Str) (name : Str) (entries : List RawEntry) :
    fetch_feed cleanHtml name (.ok entries)
      = ((entries.take 20).filter
          (fun e => acceptsAmended name (cleanHtml e.title) (cleanHtml e.summary))).map
            (normalizeEntry cleanHtml name) := by
  have h0 : fetch_feed cleanHtml name (.ok entries)
      = (entries.take 20).filterMap (fun e =>
          if !(strContains name "AI".toList) &&
              !(is_ai_related (cleanHtml e.title) (cleanHtml e.summary)) then none
          else some (normalizeEntry cleanHtml name e)) := rfl
  rw [h0]
  rw [skipFilterMap
    (fun e => !(strContains name "AI".toList) &&
      !(is_ai_related (cleanHtml e.title) (cleanHtml e.summary)))
    (normalizeEntry cleanHtml name) (entries.take 20)]
  have hpt : ∀ e : RawEntry,
      (!(!(strContains name "AI".toList) &&
        !(is_ai_related (cleanHtml e.title) (cleanHtml e.summary))))
        = acceptsAmended name (cleanHtml e.title) (cleanHtml e.summary) := by
    intro e
    rw [not_not_and_not]
    rfl
  rw [List.filter_congr (fun e _ => hpt e)]

lemma truncate_summary_length_le (s : Str) : (truncate_summary s).length ≤ 303 := by
  unfold truncate_summary
  by_cases h : s.length > 300
  · rw [if_pos h]
    rw [List.length_append, List.length_take]
    have : min 300 s.length = 300 := Nat.min_eq_left (Nat.le_of_lt h)
    rw [this]
    decide
  · rw [if_neg h]
    have := Nat.le_of_not_lt h
    omega

lemma insertByKey_pairwise (x : NewsItem) :
    ∀ l : List NewsItem,
      l.Pairwise (fun a b => sortKey b ≤ sortKey a) →
      (insertByKey x l).Pairwise (fun a b => sortKey b ≤ sortKey a) := by
  intro l
  induction l with
  | nil => intro _; simp [insertByKey]
  | cons y ys ih =>
      intro h
      rw [List.pairwise_cons] at h
      unfold insertByKey
      by_cases hk : sortKey y ≤ sortKey x
      · rw [if_pos hk]
        rw [List.pairwise_cons]
        constructor
        · intro b hb
          cases hb with
          | head => exact hk
          | tail _ hb2 => exact Nat.le_trans (h.1 b hb2) hk
        · rw [List.pairwise_cons]
          exact h
      · rw [if_neg hk]
        rw [List.pairwise_cons]
        constructor
        · intro b hb
          have hmem : b = x ∨ b ∈ ys := by
            have : ∀ m : List NewsItem, b ∈ insertByKey x m → b = x ∨ b ∈ m := by
              intro m
              induction m with
              | nil => intro hm; simp [insertByKey] at hm; exact Or.inl hm
              | cons z zs ihz =>
                  intro hm
                  unfold insertByKey at hm
                  by_cases hz : sortKey z ≤ sortKey x
                  · rw [if_pos hz] at hm
                    cases hm with
                    | head => exact Or.inl rfl
                    | tail _ hm2 => exact Or.inr hm2
                  · rw [if_neg hz] at hm
                    cases hm with
                    | head => exact Or.inr (List.mem_cons_self b zs)
                    | tail _ hm2 =>
                        cases ihz hm2 with
                        | inl hx => exact Or.inl hx
                        | inr hmem2 => exact Or.inr (List.mem_cons_of_mem z hmem2)
            exact this ys hb
          cases hmem with
          | inl hx => exact hx ▸ Nat.le_of_lt (Nat.lt_of_not_le hk)
          | inr hmem2 => exact h.1 b hmem2
        · exact ih h.2

lemma sortByPublishedDesc_pairwise (l : List NewsItem) :
    (sortByPublishedDesc l).Pairwise (fun a b => sortKey b ≤ sortKey a) := by
  induction l with
  | nil => simp [sortByPublishedDesc]
  | cons x xs ih => exact insertByKey_pairwise x (sortByPublishedDesc xs) ih

/- ### Claim C3 -/

/-- Claim C3: a fetch failure for one source yields exactly zero items from
that source (the embedded `fetch_feed` is total, so nothing is raised to the
caller), and `fetch_all_news` over a registry in which source `s` failed is
exactly `fetch_all_news` with `s` contributing an empty feed — the other
sources' contributions are untouched. -/
theorem C3_failure_isolated :
    (∀ (cleanHtml : Str → Str) (name : Str), fetch_feed cleanHtml name .err = []) ∧
    (∀ (cleanHtml : Str → Str) (fetchOutcome : Str → FeedOutcome)
        (sources : Option (List Str)) (s : Str),
      fetchOutcome s = .err →
      fetch_all_news cleanHtml fetchOutcome sources =
        fetch_all_news cleanHtml
          (fun n => if n = s then .ok [] else fetchOutcome n) sources) := by
  constructor
  · intro cleanHtml name
    rfl
  · intro cleanHtml fetchOutcome sources s hoc
    unfold fetch_all_news
    have hmap : ∀ p ∈ selectFeeds sources,
        fetch_feed cleanHtml p.1 (fetchOutcome p.1)
          = fetch_feed cleanHtml p.1 (if p.1 = s then .ok [] else fetchOutcome p.1) := by
      intro p _
      by_cases hp : p.1 = s
      · rw [if_pos hp, hp, hoc]
        rfl
      · rw [if_neg hp]
    rw [List.map_congr_left hmap]

/-- Witness for C3's theorem: a registry lookup in which "Wired AI" fails and
every other source returns an empty feed. -/
theorem C3_failure_isolated_witness :
    (fun n => if n = "Wired AI".toList then FeedOutcome.err else .ok []) "Wired AI".toList
      = FeedOutcome.err ∧
    fetch_all_news id (fun n => if n = "Wired AI".toList then FeedOutcome.err else .ok []) none
      = fetch_all_news id
          (fun n => if n = "Wired AI".toList then FeedOutcome.ok []
            else (fun m => if m = "Wired AI".toList then FeedOutcome.err else .ok []) n)
          none :=
  ⟨by decide,
    C3_failure_isolated.2 id
      (fun n => if n = "Wired AI".toList then FeedOutcome.err else .ok [])
      none "Wired AI".toList (by decide)⟩

/- ### Claim C4 -/

/-- Claim C4, as stated, is false at this concrete input: one selected source
returns two entries, the first with an absent publish timestamp and the second
published exactly at the minimum representable time (`datetime.min`, modelled
as `0`).  Both sort keys are the minimum, the stable sort keeps their order,
and the returned sequence places the absent-timestamp item before an item that
has a timestamp. -/
theorem C4_counterexample :
    (fetch_all_news id
        (fun n => if n = "TechCrunch AI".toList then
            FeedOutcome.ok [⟨"t1".toList, "s1".toList, "u1".toList, none, none⟩,
                            ⟨"t2".toList, "s2".toList, "u2".toList, some 0, none⟩]
          else .err)
        (some ["TechCrunch AI".toList])).map (fun x => x.published)
      = [none, some 0] := by decide

/-- Claim C4 (amended): the sequence returned by `fetch_all_news` is sorted by
published timestamp descending with an absent timestamp ranked as the oldest
possible value; consequently every item placed after an absent-timestamp item
has the oldest possible key (its timestamp is absent or equal to the minimum),
so an absent item never precedes an item with a strictly newer timestamp —
regardless of fetch outcomes and selected sources. -/
theorem C4_sorted_published_desc (cleanHtml : Str → Str)
    (fetchOutcome : Str → FeedOutcome) (sources : Option (List Str)) :
    (fetch_all_news cleanHtml fetchOutcome sources).Pairwise
      (fun a b => sortKey b ≤ sortKey a ∧ (a.published = none → sortKey b = 0)) := by
  unfold fetch_all_news
  have hp := sortByPublishedDesc_pairwise
    (((selectFeeds sources).map
      (fun p => fetch_feed cleanHtml p.1 (fetchOutcome p.1))).flatten)
  refine hp.imp ?_
  intro a b hab
  refine ⟨hab, ?_⟩
  intro hnone
  have ha : sortKey a = 0 := by rw [sortKey, hnone]; rfl
  rw [ha] at hab
  exact Nat.le_zero.mp hab

/- ### Claim C5 -/

/-- Claim C5, as stated, is false at this concrete input: for a source whose
registry name "Slashdot" does not contain "AI", the entry with title
"artificial" and summary "intelligence" is accepted by the fetcher (the code
joins title and summary with a space, forming "artificial intelligence"),
yet the plain concatenation of title and summary demanded by the claim's
wording contains no keyword — so acceptance is not equivalent to the claim's
predicate `acceptsSpec`. -/
theorem C5_counterexample :
    strContains "Slashdot".toList "AI".toList = false ∧
    acceptsSpec "Slashdot".toList "artificial".toList "intelligence".toList = false ∧
    fetch_feed id "Slashdot".toList
        (.ok [⟨"artificial".toList, "intelligence".toList, [], none, none⟩])
      = [⟨"artificial".toList, "intelligence".toList, [], "Slashdot".toList, none, none⟩] := by
  refine ⟨by decide, by decide, by decide⟩

/-- Claim C5 (amended): on a successful fetch the relevance filter keeps, in
feed order, exactly the entries accepted by `acceptsAmended`: every item from
a source whose registry name contains "AI" unconditionally, and otherwise an
item iff the case-insensitive join of its title and summary — with the single
separating space the code inserts — contains at least one keyword of the
fixed list (substring matching). -/
theorem C5_filter_accepts_iff (cleanHtml : Str → Str) (name : Str)
    (entries : List RawEntry) :
    fetch_feed cleanHtml name (.ok entries)
      = ((entries.take 20).filter
          (fun e => acceptsAmended name (cleanHtml e.title) (cleanHtml e.summary))).map
            (normalizeEntry cleanHtml name) :=
  fetch_feed_eq cleanHtml name entries

/- ### Claim C6 -/

/-- Claim C6: every `NewsItem` produced by a fetch has a summary of length at
most 303; the truncation rule is exactly: a (stripped) summary longer than 300
characters becomes its first 300 characters followed by the 3-character
ellipsis marker (total length 303), and a summary of length at most 300 is
kept unchanged. -/
theorem C6_summary_bounded :
    (∀ (cleanHtml : Str → Str) (name : Str) (outcome : FeedOutcome) (item : NewsItem),
      item ∈ fetch_feed cleanHtml name outcome → item.summary.length ≤ 303) ∧
    (∀ s : Str, 300 < s.length →
      truncate_summary s = s.take 300 ++ "...".toList ∧ (truncate_summary s).length = 303) ∧
    (∀ s : Str, s.length ≤ 300 → truncate_summary s = s) := by
  refine ⟨?_, ?_, ?_⟩
  · intro cleanHtml name outcome item hmem
    cases outcome with
    | err => simp [fetch_feed] at hmem
    | ok entries =>
        rw [fetch_feed_eq] at hmem
        rcases List.mem_map.mp hmem with ⟨e, _, he⟩
        rw [← he]
        exact truncate_summary_length_le (cleanHtml e.summary)
  · intro s h
    unfold truncate_summary
    rw [if_pos h]
    refine ⟨rfl, ?_⟩
    rw [List.length_append, List.length_take, Nat.min_eq_left (Nat.le_of_lt h)]
    rfl
  · intro s h
    unfold truncate_summary
    rw [if_neg (Nat.not_lt.mpr h)]

/-- Witness for C6's theorem: a produced item's summary is bounded, and a
400-character summary truncates to exactly 303 characters. -/
theorem C6_summary_bounded_witness :
    (⟨"t".toList, "s".toList, "u".toList, "TechCrunch AI".toList, none, none⟩ : NewsItem)
      ∈ fetch_feed id "TechCrunch AI".toList
          (.ok [⟨"t".toList, "s".toList, "u".toList, none, none⟩]) ∧
    (⟨"t".toList, "s".toList, "u".toList, "TechCrunch AI".toList, none,
        none⟩ : NewsItem).summary.length ≤ 303 ∧
    300 < (List.replicate 400 'x').length ∧
    (truncate_summary (List.replicate 400 'x')).length = 303 := by
  have h400 : (300 : Nat) < (List.replicate 400 'x').length := by
    rw [List.length_replicate]
    omega
  refine ⟨by decide, ?_, h400, ?_⟩
  · exact C6_summary_bounded.1 id "TechCrunch AI".toList
      (.ok [⟨"t".toList, "s".toList, "u".toList, none, none⟩]) _ (by decide)
  · exact (C6_summary_bounded.2.1 (List.replicate 400 'x') h400).2

/- ### Claim C8 -/

/-- Claim C8: with an effective (stripped) keyword that is non-empty,
`get_news` returns exactly the first 50 of the fetched items whose title or
summary contains the keyword case-insensitively; with no effective keyword,
all fetched items pass through before the 50-item cap; in both cases the
returned items are a sublist of the fetched sequence, so the fetcher's sort
order is preserved. -/
theorem C8_query_filter_cap (cleanHtml : Str → Str) (fetchOutcome : Str → FeedOutcome)
    (sources : List Str) (queryArg : Str) :
    (pyStrip queryArg ≠ [] →
      get_news cleanHtml fetchOutcome sources queryArg
        = ((fetch_all_news cleanHtml fetchOutcome
              (if sources.isEmpty then none else some sources)).filter
                (matchesKeywordCI (pyStrip queryArg))).take 50) ∧
    (pyStrip queryArg = [] →
      get_news cleanHtml fetchOutcome sources queryArg
        = (fetch_all_news cleanHtml fetchOutcome
              (if sources.isEmpty then none else some sources)).take 50) ∧
    (get_news cleanHtml fetchOutcome sources queryArg).Sublist
      (fetch_all_news cleanHtml fetchOutcome
        (if sources.isEmpty then none else some sources)) := by
  by_cases hq : pyStrip queryArg = []
  · have h1 : (pyLower (pyStrip queryArg)).isEmpty = true := by rw [hq]; rfl
    have hget : get_news cleanHtml fetchOutcome sources queryArg
        = (fetch_all_news cleanHtml fetchOutcome
            (if sources.isEmpty then none else some sources)).take 50 := by
      simp only [get_news]
      rw [h1]
      rfl
    refine ⟨fun hc => absurd hq hc, fun _ => hget, ?_⟩
    rw [hget]
    exact List.take_sublist 50 _
  · have h1 : (pyLower (pyStrip queryArg)).isEmpty = false := by
      cases hk : pyStrip queryArg with
      | nil => exact absurd hk hq
      | cons a t => rfl
    have hget : get_news cleanHtml fetchOutcome sources queryArg
        = ((fetch_all_news cleanHtml fetchOutcome
              (if sources.isEmpty then none else some sources)).filter
                (matchesKeywordCI (pyStrip queryArg))).take 50 := by
      simp only [get_news]
      rw [h1]
      rfl
    refine ⟨fun _ => hget, fun hc => absurd hc hq, ?_⟩
    rw [hget]
    exact (List.take_sublist 50 _).trans (List.filter_sublist _)

/-- Witness for C8's theorem: the query " GPT " (non-empty after stripping)
over a registry in which every fetch fails. -/
theorem C8_query_filter_cap_witness :
    pyStrip " GPT ".toList ≠ [] ∧
    get_news id (fun _ => FeedOutcome.err) [] " GPT ".toList
      = ((fetch_all_news id (fun _ => FeedOutcome.err) none).filter
          (matchesKeywordCI (pyStrip " GPT ".toList))).take 50 :=
  ⟨by decide,
    (C8_query_filter_cap id (fun _ => FeedOutcome.err) [] " GPT ".toList).1 (by decide)⟩

/-- Witness instance of C4's theorem at a concrete registry outcome. -/
theorem C4_sorted_published_desc_witness :
    (fetch_all_news id
        (fun n => if n = "TechCrunch AI".toList then
            FeedOutcome.ok [⟨"ta".toList, "sa".toList, "ua".toList, some 5, none⟩,
                            ⟨"tb".toList, "sb".toList, "ub".toList, some 9, none⟩]
          else .err) none).Pairwise
      (fun a b => sortKey b ≤ sortKey a ∧ (a.published = none → sortKey b = 0)) :=
  C4_sorted_published_desc id
    (fun n => if n = "TechCrunch AI".toList then
        FeedOutcome.ok [⟨"ta".toList, "sa".toList, "ua".toList, some 5, none⟩,
                        ⟨"tb".toList, "sb".toList, "ub".toList, some 9, none⟩]
      else .err) none

/-- Witness instance of C5's theorem at a concrete non-AI source. -/
theorem C5_filter_accepts_iff_witness :
    fetch_feed id "Slashdot".toList
        (.ok [⟨"gpt-5 ships".toList, "today".toList, [], none, none⟩,
              ⟨"quiet day".toList, "nothing new".toList, [], none, none⟩])
      = ((([⟨"gpt-5 ships".toList, "today".toList, [], none, none⟩,
            ⟨"quiet day".toList, "nothing new".toList, [], none, none⟩] : List RawEntry).take 20).filter
          (fun e => acceptsAmended "Slashdot".toList (id e.title) (id e.summary))).map
            (normalizeEntry id "Slashdot".toList) :=
  C5_filter_accepts_iff id "Slashdot".toList
    [⟨"gpt-5 ships".toList, "today".toList, [], none, none⟩,
     ⟨"quiet day".toList, "nothing new".toList, [], none, none⟩]
